import Mathlib

/-!
# Tramontina Reconciliation — verification of the reconciliation pipeline

Shallow embedding of `src/gem_updated.py`: the spreadsheet normalizer
(`load_and_clean_excel` with its inner `clean_currency`), the document
extraction filter (`extract_pdf_data` item loop with `clean_num_strict`),
the outer-join merge with per-row status (`comp_df`), the grand-totals
table (`summary_results`), and the overall-accuracy metric.  Floats are
modelled as rationals; Python exceptions as `Option`.
-/

namespace Tramontina

/-- `listStartsWith needle hay` : does `hay` start with `needle`?
(Models the anchored step of Python's substring test.) -/
def listStartsWith : List Char → List Char → Bool
  | [], _ => true
  | _ :: _, [] => false
  | a :: as, b :: bs => a == b && listStartsWith as bs

/-- `listContainsSub needle hay` : does `needle` occur as a contiguous
substring of `hay`?  (Models Python's `needle in hay`.) -/
def listContainsSub (needle : List Char) : List Char → Bool
  | [] => needle.isEmpty
  | hay@(_ :: rest) => listStartsWith needle hay || listContainsSub needle rest

/-- String-level substring test, Python's `needle in hay`. -/
def strContainsSub (needle hay : String) : Bool :=
  listContainsSub needle.data hay.data

/-- Python `str.strip()`: remove leading and trailing whitespace. -/
def pyStrip (s : String) : String :=
  ⟨((s.data.dropWhile Char.isWhitespace).reverse.dropWhile Char.isWhitespace).reverse⟩

/-- Python `str.lower()`. -/
def pyLower (s : String) : String :=
  ⟨s.data.map Char.toLower⟩

/-- Python `str.replace('TR-', '')`: remove every occurrence of the fixed
prefix literal `"TR-"`, scanning left to right. -/
def removeTR : List Char → List Char
  | 'T' :: 'R' :: '-' :: rest => removeTR rest
  | c :: rest => c :: removeTR rest
  | [] => []

/-- Models `re.sub(r'[^0-9.]', '', s)`: keep only ASCII digits and dots. -/
def stripNonNumeric (s : String) : String :=
  ⟨s.data.filter (fun c => c.isDigit || c == '.')⟩

/-- Value of a list of decimal digit characters read left to right. -/
def digitsVal (cs : List Char) : ℕ :=
  cs.foldl (fun a c => 10 * a + (c.toNat - 48)) 0

/-- Models Python `float(s)` on a string containing only digits and dots
(the only shape ever passed to it in this program): succeeds iff the
string has at least one digit and at most one dot. -/
def parseFloat (s : String) : Option ℚ :=
  if (s.data.any fun c => c.isDigit) ∧ s.data.count '.' ≤ 1
      ∧ (∀ c ∈ s.data, c.isDigit ∨ c = '.') then
    some ((digitsVal (s.data.takeWhile (fun c => c ≠ '.')) : ℚ)
      + (digitsVal ((s.data.dropWhile (fun c => c ≠ '.')).drop 1) : ℚ)
        / (10 ^ ((s.data.dropWhile (fun c => c ≠ '.')).drop 1).length))
  else none

/-- A pandas cell: either NaN/missing or (the string form of) a value. -/
inductive Cell where
  | na : Cell
  | str (s : String) : Cell
deriving DecidableEq

/-- `str(value)` on a cell: pandas renders NaN as `"nan"`. -/
def strOfCell : Cell → String
  | Cell.na => "nan"
  | Cell.str s => s

/-- `clean_currency` (inner helper of `load_and_clean_excel`):
NaN ↦ 0.0, otherwise strip non-numeric characters and parse,
defaulting to 0.0 on empty result or parse failure. -/
def clean_currency (value : Cell) : ℚ :=
  match value with
  | Cell.na => 0
  | Cell.str s => (parseFloat (stripNonNumeric s)).getD 0

/-- Azure `value_currency` sub-object: carries an `amount`. -/
structure CurrencyValue where
  amount : ℚ
deriving DecidableEq

/-- An Azure Document Intelligence field: optional structured number,
optional structured currency, and raw text content. -/
structure DocField where
  value_number : Option ℚ
  value_currency : Option CurrencyValue
  content : String
deriving DecidableEq

/-- `clean_num_strict`: absolute value of the structured number if present,
else absolute value of the currency amount if present, else strip the raw
content and parse, defaulting to 0.0; `None` field ↦ 0.0. -/
def clean_num_strict (field : Option DocField) : ℚ :=
  match field with
  | none => 0
  | some f =>
    match f.value_number with
    | some v => |v|
    | none =>
      match f.value_currency with
      | some c => |c.amount|
      | none => (parseFloat (stripNonNumeric f.content)).getD 0

/-- A cleaned spreadsheet record: material code plus the three numeric
columns (`Qty_EXCEL`, `Tax_EXCEL`, `Total_EXCEL`). -/
structure ExcelRow where
  code : String
  qty : ℚ
  tax : ℚ
  total : ℚ
deriving DecidableEq

/-- `r.iloc[i]` on a (possibly short) row, missing cells being NaN. -/
def cellAt (r : List Cell) (i : ℕ) : Cell := r.getD i Cell.na

/-- Does a (stringified) row contain the header marker `"SKU"` in any cell?
Models `r.astype(str).str.contains('SKU').any()`. -/
def rowHasSKU (r : List String) : Bool :=
  r.any (fun c => strContainsSub "SKU" c)

/-- Index of the first row containing `"SKU"` — the header scan of
`load_and_clean_excel`; `none` models the IndexError when absent. -/
def findHeaderRow : List (List String) → Option ℕ
  | [] => none
  | r :: rest =>
      if rowHasSKU r then some 0
      else (findHeaderRow rest).map (fun i => i + 1)

/-- One data row of the cleaned frame: column 0 is the material code
(`"TR-"` prefix removed everywhere, whitespace stripped), columns 4, 10
and 11 are `clean_currency`-coerced quantity, tax and total. -/
def makeExcelRow (r : List Cell) : ExcelRow :=
  { code := pyStrip ⟨removeTR (strOfCell (cellAt r 0)).data⟩
    qty := clean_currency (cellAt r 4)
    tax := clean_currency (cellAt r 10)
    total := clean_currency (cellAt r 11) }

/-- `load_and_clean_excel`: locate the header row, treat all later rows as
data, clean each, and drop rows whose code is the string `"nan"`.
`none` models the uncaught IndexError when no row contains `"SKU"`. -/
def load_and_clean_excel (rows : List (List Cell)) : Option (List ExcelRow) :=
  match findHeaderRow (rows.map (fun r => r.map strOfCell)) with
  | none => none
  | some i =>
      some (((rows.drop (i + 1)).map makeExcelRow).filter (fun e => e.code != "nan"))

/-- An emitted document line item (`Material Code`, `Total_PDF`). -/
structure LineItem where
  code : String
  amount : ℚ
deriving DecidableEq

/-- One candidate item of the Azure result's `Items` array: the
`ProductCode` and `Amount` fields of its `value_object`. -/
structure RawItem where
  productCode : Option DocField
  amount : Option DocField
deriving DecidableEq

/-- The body of the item loop of `extract_pdf_data`: skip items without a
product code or with empty code text; otherwise trim the code, coerce the
amount, apply the cross-reference filter against the spreadsheet code
list, drop codes containing `"total"` (case-insensitive) and zero
amounts, and emit the line item. -/
def keepItem (validCodes : List String) (it : RawItem) : Option LineItem :=
  match it.productCode with
  | none => none
  | some pf =>
    if pf.content = "" then none
    else
      let m_code := pyStrip pf.content
      let amt := clean_num_strict it.amount
      if m_code ∈ validCodes then
        if strContainsSub "total" (pyLower m_code) ∨ amt = 0 then none
        else some { code := m_code, amount := amt }
      else none

/-- `drop_duplicates` keeping the first occurrence of each
(code, amount) pair, as pandas does. -/
def dedupFirstAux (seen : List LineItem) : List LineItem → List LineItem
  | [] => []
  | x :: xs =>
      if x ∈ seen then dedupFirstAux seen xs
      else x :: dedupFirstAux (x :: seen) xs

/-- The line-item output of `extract_pdf_data`: the kept items of all
candidate items (in order, across all documents), deduplicated on the
(code, amount) pair. -/
def extract_items (validCodes : List String) (raws : List RawItem) : List LineItem :=
  dedupFirstAux [] (raws.filterMap (keepItem validCodes))

/-- Row classification: `"✅ Match"` / `"❌ Mismatch"`. -/
inductive Status where
  | matched : Status
  | mismatch : Status
deriving DecidableEq, Inhabited

/-- A row of `comp_df` after the merge: code, `Total_PDF`, `Total_EXCEL`. -/
structure CompRow where
  code : String
  totalPDF : ℚ
  totalEXCEL : ℚ
deriving DecidableEq

/-- The spreadsheet rows whose code equals `c` (the right-side key group
of the merge). -/
def matchedExcel (excel : List ExcelRow) (c : String) : List ExcelRow :=
  excel.filter (fun e => e.code == c)

/-- Merge rows contributed by the document side: each PDF item paired with
every spreadsheet row of the same code, or with `Total_EXCEL = 0` when the
code has no spreadsheet row (`fillna(0)`). -/
def leftPart (pdf : List LineItem) (excel : List ExcelRow) : List CompRow :=
  pdf.flatMap (fun p =>
    if (matchedExcel excel p.code).isEmpty
    then [{ code := p.code, totalPDF := p.amount, totalEXCEL := 0 }]
    else (matchedExcel excel p.code).map
      (fun e => { code := p.code, totalPDF := p.amount, totalEXCEL := e.total }))

/-- Merge rows contributed only by the spreadsheet side: rows whose code
matches no PDF item, with `Total_PDF = 0` (`fillna(0)`). -/
def rightPart (pdf : List LineItem) (excel : List ExcelRow) : List CompRow :=
  (excel.filter (fun e => pdf.all (fun p => !(p.code == e.code)))).map
    (fun e => { code := e.code, totalPDF := 0, totalEXCEL := e.total })

/-- The row multiset of a successful
`pd.merge(pdf_df, excel_df[...], on="Material Code", how="outer").fillna(0)`:
the full outer join of the two sources keyed on the material code. -/
def outerMerge (pdf : List LineItem) (excel : List ExcelRow) : List CompRow :=
  leftPart pdf excel ++ rightPart pdf excel

/-- The merge of line 137 including its error path: when `all_line_items`
is empty, `pd.DataFrame([])` is a frame with no columns, so the merge on
`"Material Code"` raises KeyError (`none`); otherwise both frames carry
the key column (the spreadsheet frame always does, its columns are
assigned explicitly) and the outer-join rows are produced. -/
def comp_df (pdf : List LineItem) (excel : List ExcelRow) : Option (List CompRow) :=
  match pdf with
  | [] => none
  | p :: ps => some (outerMerge (p :: ps) excel)

/-- The `Status` column of `comp_df`:
Match iff `abs(Total_PDF - Total_EXCEL) <= tolerance`. -/
def rowStatus (tolerance : ℚ) (r : CompRow) : Status :=
  if |r.totalPDF - r.totalEXCEL| ≤ tolerance then Status.matched else Status.mismatch

/-- The footer summary of `extract_pdf_data`. -/
structure Summary where
  Gross_Total_Qty : ℚ
  Total_Tax_Footer : ℚ
  Grand_Total_Footer : ℚ
deriving DecidableEq

/-- A row of the `summary_results` grand-totals table. -/
structure SummaryRow where
  metric : String
  pdfData : ℚ
  excelSum : ℚ
  difference : ℚ
  status : Status
deriving DecidableEq, Inhabited

/-- `excel_df['Qty_EXCEL'].sum()`. -/
def qtySum (excel : List ExcelRow) : ℚ := (excel.map (fun e => e.qty)).sum

/-- `excel_df['Tax_EXCEL'].sum()`. -/
def taxSum (excel : List ExcelRow) : ℚ := (excel.map (fun e => e.tax)).sum

/-- `excel_df['Total_EXCEL'].sum()`. -/
def totalSum (excel : List ExcelRow) : ℚ := (excel.map (fun e => e.total)).sum

/-- The `summary_results` table: Total Quantity compared by exact equality
of the difference with 0; Total Tax and Grand Total compared with the
tolerance. -/
def summary_results (s : Summary) (excel : List ExcelRow) (tolerance : ℚ) :
    List SummaryRow :=
  [ { metric := "Total Quantity", pdfData := s.Gross_Total_Qty,
      excelSum := qtySum excel,
      difference := s.Gross_Total_Qty - qtySum excel,
      status := if s.Gross_Total_Qty - qtySum excel = 0 then Status.matched
                else Status.mismatch },
    { metric := "Total Tax", pdfData := s.Total_Tax_Footer,
      excelSum := taxSum excel,
      difference := s.Total_Tax_Footer - taxSum excel,
      status := if |s.Total_Tax_Footer - taxSum excel| ≤ tolerance then Status.matched
                else Status.mismatch },
    { metric := "Grand Total", pdfData := s.Grand_Total_Footer,
      excelSum := totalSum excel,
      difference := s.Grand_Total_Footer - totalSum excel,
      status := if |s.Grand_Total_Footer - totalSum excel| ≤ tolerance then Status.matched
                else Status.mismatch } ]

/-- The Overall Accuracy metric:
`len(comp_df[comp_df['Status'] == '✅ Match']) / len(comp_df) * 100`.
`none` models the uncaught ZeroDivisionError on an empty frame. -/
def overallAccuracy (tolerance : ℚ) (rows : List CompRow) : Option ℚ :=
  if rows.length = 0 then none
  else some ((((rows.filter (fun r => rowStatus tolerance r == Status.matched)).length : ℚ)
      / (rows.length : ℚ)) * 100)

/-! ## Helper lemmas -/

/-- A successfully parsed numeric string is non-negative: the parsed text
contains no sign character. -/
theorem parseFloat_nonneg (s : String) (q : ℚ) (h : parseFloat s = some q) : 0 ≤ q := by
  unfold parseFloat at h
  split at h
  · injection h with h'
    subst h'
    positivity
  · exact absurd h (by simp)

/-- `clean_currency` never returns a negative value. -/
theorem clean_currency_nonneg (v : Cell) : 0 ≤ clean_currency v := by
  cases v with
  | na => simp [clean_currency]
  | str s =>
    simp only [clean_currency]
    cases hp : parseFloat (stripNonNumeric s) with
    | none => simp
    | some q => simpa using parseFloat_nonneg _ q hp

/-- `clean_num_strict` never returns a negative value. -/
theorem clean_num_strict_nonneg (f : Option DocField) : 0 ≤ clean_num_strict f := by
  cases f with
  | none => simp [clean_num_strict]
  | some f =>
    obtain ⟨vn, vc, ct⟩ := f
    cases vn with
    | some v => simp [clean_num_strict, abs_nonneg]
    | none =>
      cases vc with
      | some c => simp [clean_num_strict, abs_nonneg]
      | none =>
        simp only [clean_num_strict]
        cases hp : parseFloat (stripNonNumeric ct) with
        | none => simp
        | some q => simpa using parseFloat_nonneg _ q hp

/-- Deduplication only discards elements: members of the result were
members of the input. -/
theorem mem_of_mem_dedupFirstAux (seen : List LineItem) (l : List LineItem)
    (x : LineItem) (h : x ∈ dedupFirstAux seen l) : x ∈ l := by
  induction l generalizing seen with
  | nil => simp [dedupFirstAux] at h
  | cons y ys ih =>
    unfold dedupFirstAux at h
    by_cases hy : y ∈ seen
    · simp only [if_pos hy] at h
      exact List.mem_cons_of_mem _ (ih _ h)
    · simp only [if_neg hy, List.mem_cons] at h
      rcases h with h | h
      · exact h ▸ List.mem_cons_self _ _
      · exact List.mem_cons_of_mem _ (ih _ h)

/-- An emitted line item passed the cross-reference filter: its code is in
the valid-code list, and it is the trimmed product-code text with the
coerced amount. -/
theorem keepItem_eq_some (validCodes : List String) (it : RawItem) (li : LineItem)
    (h : keepItem validCodes it = some li) : li.code ∈ validCodes := by
  obtain ⟨pc, am⟩ := it
  cases pc with
  | none => simp [keepItem] at h
  | some pf =>
    simp only [keepItem] at h
    by_cases hc : pf.content = ""
    · rw [if_pos hc] at h; cases h
    · rw [if_neg hc] at h
      by_cases hm : pyStrip pf.content ∈ validCodes
      · rw [if_pos hm] at h
        by_cases ht : (strContainsSub "total" (pyLower (pyStrip pf.content)) = true)
            ∨ clean_num_strict am = 0
        · rw [if_pos ht] at h; cases h
        · rw [if_neg ht] at h
          injection h with h'
          rw [← h']
          exact hm
      · rw [if_neg hm] at h; cases h

/-! ## Claim theorems -/

/-- C7: both numeric coercion functions (`clean_num_strict` and
`clean_currency`) return a non-negative value on every input; the sign of
a negative input is discarded, so the strings `"-123.45"` and `"123.45"`
both coerce to 123.45. -/
theorem numeric_coercion_sign_erasing :
    (∀ f : Option DocField, 0 ≤ clean_num_strict f)
    ∧ (∀ v : Cell, 0 ≤ clean_currency v)
    ∧ clean_currency (Cell.str "-123.45") = clean_currency (Cell.str "123.45")
    ∧ clean_currency (Cell.str "-123.45") = 12345 / 100
    ∧ clean_num_strict (some { value_number := some (-1 * (12345 / 100)), value_currency := none, content := "" }) = 12345 / 100 := by
  refine ⟨clean_num_strict_nonneg, clean_currency_nonneg, rfl, ?_, ?_⟩
  · rw [show clean_currency (Cell.str "-123.45")
        = ((123 : ℕ) : ℚ) + ((45 : ℕ) : ℚ) / 10 ^ (2 : ℕ) from rfl]
    norm_num
  · rw [show clean_num_strict (some { value_number := some (-1 * (12345 / 100)), value_currency := none, content := "" }) = |(-1 : ℚ) * (12345 / 100)| from rfl]
    rw [neg_one_mul, abs_neg, abs_of_nonneg (by positivity)]

/-- C8: a numeric field that is missing/null, strips to the empty string,
or fails to parse after the non-numeric strip coerces to 0.0 (and the
coercions are total functions — no failure propagates). -/
theorem numeric_coercion_defaults_to_zero :
    clean_currency Cell.na = 0
    ∧ (∀ s : String, stripNonNumeric s = "" → clean_currency (Cell.str s) = 0)
    ∧ (∀ s : String, parseFloat (stripNonNumeric s) = none → clean_currency (Cell.str s) = 0)
    ∧ clean_num_strict none = 0
    ∧ (∀ f : DocField, f.value_number = none → f.value_currency = none →
        parseFloat (stripNonNumeric f.content) = none → clean_num_strict (some f) = 0) := by
  refine ⟨rfl, ?_, ?_, rfl, ?_⟩
  · intro s h
    simp only [clean_currency]
    rw [h]
    rfl
  · intro s h
    simp only [clean_currency]
    rw [h]
    rfl
  · intro f h1 h2 h3
    obtain ⟨vn, vc, ct⟩ := f
    simp only at h1 h2
    subst h1; subst h2
    simp only [clean_num_strict]
    rw [h3]
    rfl

/-- Witness for C8 at concrete inputs: an all-letter cell strips to the
empty string, and a two-dot cell fails the float parse; both coerce to 0. -/
theorem numeric_coercion_defaults_to_zero_witness :
    clean_currency (Cell.str "abc") = 0 ∧ clean_currency (Cell.str "1.2.3") = 0 :=
  ⟨numeric_coercion_defaults_to_zero.2.1 "abc" (by decide),
   numeric_coercion_defaults_to_zero.2.2.1 "1.2.3" (by decide)⟩

/-- C2: every line item emitted by the document extraction has a code
belonging to the spreadsheet code list — the cross-reference filter admits
no foreign code. -/
theorem cross_reference_no_false_admission :
    ∀ (validCodes : List String) (raws : List RawItem) (li : LineItem),
      li ∈ extract_items validCodes raws → li.code ∈ validCodes := by
  intro validCodes raws li h
  have hmem := mem_of_mem_dedupFirstAux _ _ _ h
  rw [List.mem_filterMap] at hmem
  obtain ⟨it, _, hk⟩ := hmem
  exact keepItem_eq_some validCodes it li hk

/-- Witness for C2: a concrete extraction run emitting one item whose
code is in the valid list. -/
theorem cross_reference_no_false_admission_witness :
    ({ code := "A1", amount := 110 } : LineItem).code ∈ ["A1"] :=
  cross_reference_no_false_admission ["A1"]
    [{ productCode := some { value_number := none, value_currency := none, content := "A1" },
       amount := some { value_number := some 110, value_currency := none, content := "" } }]
    { code := "A1", amount := 110 } (by decide)

/-- C6: a candidate item whose (trimmed) code contains `"total"`
case-insensitively, or whose coerced amount is exactly zero, is never
emitted as a line item. -/
theorem footer_noise_suppressed :
    ∀ (validCodes : List String) (it : RawItem),
      ((∃ pf, it.productCode = some pf
          ∧ strContainsSub "total" (pyLower (pyStrip pf.content)) = true)
        ∨ clean_num_strict it.amount = 0) →
      keepItem validCodes it = none := by
  intro validCodes it h
  obtain ⟨pc, am⟩ := it
  cases pc with
  | none => simp [keepItem]
  | some pf =>
    simp only [keepItem]
    by_cases hc : pf.content = ""
    · rw [if_pos hc]
    · rw [if_neg hc]
      by_cases hm : pyStrip pf.content ∈ validCodes
      · rw [if_pos hm, if_pos]
        rcases h with ⟨pf', hpf', ht⟩ | hz
        · injection hpf' with hpf'
          subst hpf'
          exact Or.inl ht
        · exact Or.inr hz
      · rw [if_neg hm]

/-- Witness for C6: a footer row labelled `"Total Amt"` is suppressed even
though its code is in the valid list and its amount is non-zero. -/
theorem footer_noise_suppressed_witness :
    keepItem ["Total Amt"]
      { productCode := some { value_number := none, value_currency := none, content := "Total Amt" },
        amount := some { value_number := some 5, value_currency := none, content := "" } }
      = none :=
  footer_noise_suppressed _ _ (Or.inl ⟨_, rfl, by decide⟩)

/-- C1 (code bug): on zero comparison rows the overall-accuracy
computation is undefined (the Python expression divides by `len(comp_df)`
and raises `ZeroDivisionError`, modelled as `none`), contrary to the
required defined value; on any non-empty row list it is
(count of Match rows / total rows) × 100 as claimed. -/
theorem accuracy_divides_by_zero_on_empty :
    ∀ tolerance : ℚ,
      overallAccuracy tolerance [] = none
      ∧ ∀ (r : CompRow) (rest : List CompRow),
          overallAccuracy tolerance (r :: rest)
            = some (((((r :: rest).filter
                  (fun x => rowStatus tolerance x == Status.matched)).length : ℚ)
                / ((r :: rest).length : ℚ)) * 100) := by
  intro tolerance
  refine ⟨rfl, ?_⟩
  intro r rest
  unfold overallAccuracy
  rw [if_neg (by simp)]

/-- C3: the Total Quantity aggregate row of `summary_results` is Match
iff the document gross quantity minus the spreadsheet quantity sum is
exactly 0 — the tolerance is not consulted — and a difference of 0.0001
is a Mismatch for every tolerance. -/
theorem quantity_aggregate_exact_equality :
    ∀ (s : Summary) (excel : List ExcelRow) (tolerance : ℚ),
      ((summary_results s excel tolerance).headI.status = Status.matched
        ↔ s.Gross_Total_Qty - qtySum excel = 0)
      ∧ (summary_results { Gross_Total_Qty := 100, Total_Tax_Footer := 0, Grand_Total_Footer := 0 } [{ code := "A1", qty := 100 + 1 / 10000, tax := 0, total := 0 }] tolerance).headI.status = Status.mismatch := by
  intro s excel tolerance
  constructor
  · simp only [summary_results, List.headI]
    by_cases h : s.Gross_Total_Qty - qtySum excel = 0
    · simp [h]
    · simp [h]
  · simp only [summary_results, List.headI, qtySum, List.map_cons, List.map_nil,
      List.sum_cons, List.sum_nil]
    rw [if_neg (by norm_num)]

/-- C4: a per-item comparison row is Match iff the absolute difference of
its document and spreadsheet totals is at most the tolerance; a difference
exactly equal to the tolerance is Match, a larger one is Mismatch. -/
theorem per_item_tolerance_boundary :
    ∀ (tolerance : ℚ) (r : CompRow), 0 ≤ tolerance →
      (rowStatus tolerance r = Status.matched
        ↔ |r.totalPDF - r.totalEXCEL| ≤ tolerance)
      ∧ (|r.totalPDF - r.totalEXCEL| = tolerance → rowStatus tolerance r = Status.matched)
      ∧ (tolerance < |r.totalPDF - r.totalEXCEL| → rowStatus tolerance r = Status.mismatch) := by
  intro tolerance r _
  unfold rowStatus
  by_cases h : |r.totalPDF - r.totalEXCEL| ≤ tolerance
  · rw [if_pos h]
    exact ⟨by simp [h], fun _ => rfl, fun hlt => absurd h (not_le.mpr hlt)⟩
  · rw [if_neg h]
    exact ⟨by simp [h], fun he => absurd (le_of_eq he) h, fun _ => rfl⟩

/-- Witness for C4 at tolerance 10: a difference of exactly 10 is Match,
a difference of 11 is Mismatch. -/
theorem per_item_tolerance_boundary_witness :
    rowStatus 10 { code := "A1", totalPDF := 110, totalEXCEL := 100 } = Status.matched
    ∧ rowStatus 10 { code := "A1", totalPDF := 111, totalEXCEL := 100 } = Status.mismatch :=
  ⟨(per_item_tolerance_boundary 10 { code := "A1", totalPDF := 110, totalEXCEL := 100 }
      (by norm_num)).2.1 (by norm_num),
   (per_item_tolerance_boundary 10 { code := "A1", totalPDF := 111, totalEXCEL := 100 }
      (by norm_num)).2.2 (by norm_num)⟩

/-! ## Outer-join lemmas -/

/-- Unfolding `leftPart` over a cons cell. -/
theorem leftPart_cons (p : LineItem) (ps : List LineItem) (excel : List ExcelRow) :
    leftPart (p :: ps) excel
      = (if (matchedExcel excel p.code).isEmpty
          then [({ code := p.code, totalPDF := p.amount, totalEXCEL := 0 } : CompRow)]
          else (matchedExcel excel p.code).map
            (fun e => { code := p.code, totalPDF := p.amount, totalEXCEL := e.total }))
        ++ leftPart ps excel := by
  unfold leftPart
  rw [List.flatMap_cons]

/-- Every document-side merge row carries the code and amount of a
document item. -/
theorem mem_leftPart (pdf : List LineItem) (excel : List ExcelRow) (r : CompRow)
    (h : r ∈ leftPart pdf excel) :
    ∃ p ∈ pdf, r.code = p.code ∧ r.totalPDF = p.amount
      ∧ (r.totalEXCEL = 0 ∨ ∃ e ∈ excel, e.code = p.code ∧ r.totalEXCEL = e.total) := by
  unfold leftPart at h
  rw [List.mem_flatMap] at h
  obtain ⟨p, hp, hr⟩ := h
  by_cases hms : (matchedExcel excel p.code).isEmpty
  · rw [if_pos hms, List.mem_singleton] at hr
    subst hr
    exact ⟨p, hp, rfl, rfl, Or.inl rfl⟩
  · rw [if_neg hms, List.mem_map] at hr
    obtain ⟨e, he, hre⟩ := hr
    subst hre
    rw [matchedExcel, List.mem_filter] at he
    exact ⟨p, hp, rfl, rfl, Or.inr ⟨e, he.1, by simpa using he.2, rfl⟩⟩

/-- Every spreadsheet-only merge row carries a spreadsheet row's code and
total, a zero document amount, and its code matches no document item. -/
theorem mem_rightPart (pdf : List LineItem) (excel : List ExcelRow) (r : CompRow)
    (h : r ∈ rightPart pdf excel) :
    ∃ e ∈ excel, r.code = e.code ∧ r.totalPDF = 0 ∧ r.totalEXCEL = e.total
      ∧ ∀ p ∈ pdf, p.code ≠ e.code := by
  unfold rightPart at h
  rw [List.mem_map] at h
  obtain ⟨e, he, hre⟩ := h
  subst hre
  rw [List.mem_filter] at he
  refine ⟨e, he.1, rfl, rfl, rfl, ?_⟩
  intro p hp
  have hb := (List.all_eq_true.mp he.2) p hp
  simpa using hb

/-- A code absent from the spreadsheet records matches no spreadsheet row. -/
theorem matchedExcel_eq_nil (excel : List ExcelRow) (c : String)
    (h : c ∉ excel.map ExcelRow.code) : matchedExcel excel c = [] := by
  rw [matchedExcel, List.filter_eq_nil_iff]
  intro e he
  simp only [beq_iff_eq]
  intro hec
  exact h (List.mem_map.mpr ⟨e, he, hec⟩)

/-- With no duplicate spreadsheet codes, a code present in the records
matches exactly one spreadsheet row. -/
theorem matchedExcel_length_one (excel : List ExcelRow) (c : String)
    (hnd : (excel.map ExcelRow.code).Nodup) (hc : c ∈ excel.map ExcelRow.code) :
    (matchedExcel excel c).length = 1 := by
  induction excel with
  | nil => simp at hc
  | cons e es ih =>
    rw [List.map_cons, List.nodup_cons] at hnd
    rw [List.map_cons, List.mem_cons] at hc
    rw [matchedExcel, List.filter_cons]
    by_cases hec : e.code = c
    · rw [if_pos (by simpa using hec)]
      have hz : matchedExcel es c = [] := matchedExcel_eq_nil es c (hec ▸ hnd.1)
      rw [matchedExcel] at hz
      rw [hz]
      rfl
    · rw [if_neg (by simpa using hec)]
      rcases hc with hc | hc
      · exact absurd hc.symm hec
      · exact ih hnd.2 hc

/-- Document-side rows never carry a code absent from the document items. -/
theorem countP_leftPart_eq_zero (pdf : List LineItem) (excel : List ExcelRow) (c : String)
    (h : c ∉ pdf.map LineItem.code) :
    (leftPart pdf excel).countP (fun r => r.code == c) = 0 := by
  rw [List.countP_eq_zero]
  intro r hr
  obtain ⟨p, hp, hrc, -, -⟩ := mem_leftPart pdf excel r hr
  simp only [beq_iff_eq]
  intro hrc'
  exact h (List.mem_map.mpr ⟨p, hp, by rw [← hrc]; exact hrc'⟩)

/-- With no duplicate codes on either side, a code of the document items
appears in exactly one document-side merge row. -/
theorem countP_leftPart_eq_one (pdf : List LineItem) (excel : List ExcelRow) (c : String)
    (hnp : (pdf.map LineItem.code).Nodup) (hne : (excel.map ExcelRow.code).Nodup)
    (hc : c ∈ pdf.map LineItem.code) :
    (leftPart pdf excel).countP (fun r => r.code == c) = 1 := by
  induction pdf with
  | nil => simp at hc
  | cons p ps ih =>
    rw [List.map_cons, List.nodup_cons] at hnp
    rw [List.map_cons, List.mem_cons] at hc
    rw [leftPart_cons, List.countP_append]
    rcases hc with hc | hc
    · subst hc
      have htail : (leftPart ps excel).countP (fun r => r.code == p.code) = 0 :=
        countP_leftPart_eq_zero ps excel p.code hnp.1
      rw [htail, Nat.add_zero]
      by_cases hms : (matchedExcel excel p.code).isEmpty
      · rw [if_pos hms]
        simp
      · rw [if_neg hms]
        have hnil : matchedExcel excel p.code ≠ [] := fun h0 => by
          rw [h0] at hms
          exact hms rfl
        obtain ⟨e, he⟩ := List.exists_mem_of_ne_nil _ hnil
        rw [matchedExcel, List.mem_filter] at he
        have hcmem : p.code ∈ excel.map ExcelRow.code :=
          List.mem_map.mpr ⟨e, he.1, by simpa using he.2⟩
        rw [List.countP_map]
        have hcomp : ((fun (r : CompRow) => r.code == p.code) ∘ fun (e : ExcelRow) =>
            ({ code := p.code, totalPDF := p.amount, totalEXCEL := e.total } : CompRow))
            = fun _ => true := by
          funext e
          simp
        rw [hcomp]
        rw [show (matchedExcel excel p.code).countP (fun _ => true)
            = (matchedExcel excel p.code).length from by simp]
        exact matchedExcel_length_one excel p.code hne hcmem
    · have hcp : p.code ≠ c := fun h => hnp.1 (by rw [h]; exact hc)
      have hblock : (if (matchedExcel excel p.code).isEmpty
          then [({ code := p.code, totalPDF := p.amount, totalEXCEL := 0 } : CompRow)]
          else (matchedExcel excel p.code).map
            (fun e => { code := p.code, totalPDF := p.amount, totalEXCEL := e.total })).countP
          (fun r => r.code == c) = 0 := by
        split
        · simp [hcp]
        · rw [List.countP_eq_zero]
          intro r hr
          rw [List.mem_map] at hr
          obtain ⟨e, -, hre⟩ := hr
          subst hre
          simp [hcp]
      rw [hblock, Nat.zero_add]
      exact ih hnp.2 hc

/-- Spreadsheet-only rows never carry a code of the document items. -/
theorem countP_rightPart_eq_zero (pdf : List LineItem) (excel : List ExcelRow) (c : String)
    (h : c ∈ pdf.map LineItem.code) :
    (rightPart pdf excel).countP (fun r => r.code == c) = 0 := by
  rw [List.countP_eq_zero]
  intro r hr
  obtain ⟨e, -, hrc, -, -, hall⟩ := mem_rightPart pdf excel r hr
  simp only [beq_iff_eq]
  intro hrc'
  obtain ⟨p, hp, hpc⟩ := List.mem_map.mp h
  exact hall p hp (by rw [hpc, ← hrc']; exact hrc)

/-- With no duplicate spreadsheet codes, a spreadsheet code matching no
document item appears in exactly one spreadsheet-only merge row. -/
theorem countP_rightPart_eq_one (pdf : List LineItem) (excel : List ExcelRow) (c : String)
    (hne : (excel.map ExcelRow.code).Nodup)
    (hp : c ∉ pdf.map LineItem.code) (hc : c ∈ excel.map ExcelRow.code) :
    (rightPart pdf excel).countP (fun r => r.code == c) = 1 := by
  unfold rightPart
  rw [List.countP_map, List.countP_filter]
  have hcongr : (excel.countP fun (e : ExcelRow) =>
      (((fun (r : CompRow) => r.code == c) ∘ fun (e : ExcelRow) =>
          ({ code := e.code, totalPDF := 0, totalEXCEL := e.total } : CompRow)) e
        && pdf.all fun p => !(p.code == e.code)))
      = excel.countP fun e => e.code == c := by
    apply List.countP_congr
    intro e he
    simp only [Function.comp_apply, Bool.and_eq_true, List.all_eq_true,
      Bool.not_eq_true', beq_eq_false_iff_ne, beq_iff_eq]
    constructor
    · rintro ⟨h1, -⟩
      exact h1
    · intro h1
      refine ⟨h1, ?_⟩
      intro p hpp
      intro hpe
      exact hp (List.mem_map.mpr ⟨p, hpp, by rw [hpe, h1]⟩)
  rw [hcongr, List.countP_eq_length_filter]
  exact matchedExcel_length_one excel c hne hc

/-- C5 counterexample: with a non-empty document side (one item with code
`"B"`, so the merge of line 137 succeeds), two spreadsheet rows sharing
the code `"A"` (the normalizer never deduplicates codes) produce two
comparison rows for that code, so a code appearing in a source does not
always yield exactly one comparison row. -/
theorem outer_join_duplicate_code_counterexample :
    (comp_df [{ code := "B", amount := 7 }]
        [{ code := "A", qty := 0, tax := 0, total := 1 },
         { code := "A", qty := 0, tax := 0, total := 2 }]).map
      (fun rows => (rows.filter (fun r => r.code == "A")).length) = some 2
    ∧ ¬ ((comp_df [{ code := "B", amount := 7 }]
        [{ code := "A", qty := 0, tax := 0, total := 1 },
         { code := "A", qty := 0, tax := 0, total := 2 }]).map
      (fun rows => (rows.filter (fun r => r.code == "A")).length) = some 1) :=
  ⟨by decide, by decide⟩

/-- C5 (amended): when the merge succeeds — the filtered document-item
list is non-empty, for on an empty one line 137 itself raises KeyError —
and codes are unique within the document items and within the spreadsheet
records, every code appearing in either source yields exactly one
comparison row, and a code present in only one source gets 0 substituted
for the missing side. -/
theorem outer_join_unique_codes :
    ∀ (pdf : List LineItem) (excel : List ExcelRow) (c : String) (rows : List CompRow),
      comp_df pdf excel = some rows →
      (pdf.map LineItem.code).Nodup →
      (excel.map ExcelRow.code).Nodup →
      (c ∈ pdf.map LineItem.code ∨ c ∈ excel.map ExcelRow.code) →
      (rows.filter (fun r => r.code == c)).length = 1
      ∧ (∀ r ∈ rows, r.code = c → c ∉ pdf.map LineItem.code →
          r.totalPDF = 0)
      ∧ (∀ r ∈ rows, r.code = c → c ∉ excel.map ExcelRow.code →
          r.totalEXCEL = 0) := by
  intro pdf excel c rows hrows hnp hne hc
  have hrw : rows = outerMerge pdf excel := by
    cases pdf with
    | nil => exact absurd hrows (by simp [comp_df])
    | cons p ps =>
      simp only [comp_df] at hrows
      exact (Option.some_inj.mp hrows).symm
  subst hrw
  refine ⟨?_, ?_, ?_⟩
  · rw [← List.countP_eq_length_filter]
    unfold outerMerge
    rw [List.countP_append]
    by_cases hcp : c ∈ pdf.map LineItem.code
    · rw [countP_leftPart_eq_one pdf excel c hnp hne hcp,
        countP_rightPart_eq_zero pdf excel c hcp]
    · rcases hc with hc | hc
      · exact absurd hc hcp
      · rw [countP_leftPart_eq_zero pdf excel c hcp,
          countP_rightPart_eq_one pdf excel c hne hcp hc]
  · intro r hr hrc hcp
    unfold outerMerge at hr
    rw [List.mem_append] at hr
    rcases hr with hr | hr
    · obtain ⟨p, hp, hpc, -, -⟩ := mem_leftPart pdf excel r hr
      exact absurd (List.mem_map.mpr ⟨p, hp, by rw [← hpc]; exact hrc⟩) hcp
    · obtain ⟨-, -, -, h0, -, -⟩ := mem_rightPart pdf excel r hr
      exact h0
  · intro r hr hrc hce
    unfold outerMerge at hr
    rw [List.mem_append] at hr
    rcases hr with hr | hr
    · obtain ⟨p, hp, hpc, -, hex⟩ := mem_leftPart pdf excel r hr
      rcases hex with hex | ⟨e, he, hec, -⟩
      · exact hex
      · exact absurd (List.mem_map.mpr ⟨e, he, by rw [hec, ← hpc]; exact hrc⟩) hce
    · obtain ⟨e, he, hec, -, -, -⟩ := mem_rightPart pdf excel r hr
      exact absurd (List.mem_map.mpr ⟨e, he, by rw [← hec]; exact hrc⟩) hce

/-- Witness for the amended C5: with a non-empty document side and unique
codes, the merge succeeds and the spreadsheet-only code `"B2"` yields
exactly one comparison row. -/
theorem outer_join_unique_codes_witness :
    ((outerMerge [{ code := "A1", amount := 110 }]
        [{ code := "A1", qty := 5, tax := 10, total := 100 },
         { code := "B2", qty := 1, tax := 2, total := 3 }]).filter
      (fun r => r.code == "B2")).length = 1 :=
  (outer_join_unique_codes [{ code := "A1", amount := 110 }]
    [{ code := "A1", qty := 5, tax := 10, total := 100 },
     { code := "B2", qty := 1, tax := 2, total := 3 }] "B2"
    (outerMerge [{ code := "A1", amount := 110 }]
      [{ code := "A1", qty := 5, tax := 10, total := 100 },
       { code := "B2", qty := 1, tax := 2, total := 3 }])
    rfl (by decide) (by decide) (Or.inr (by decide))).1

/-- C10: a comparison row whose code matches no document item has a
document amount of 0 and is classified Match exactly when its spreadsheet
total is at most the tolerance (spreadsheet totals are non-negative). -/
theorem missing_item_matches_iff_total_le_tolerance :
    ∀ (pdf : List LineItem) (excel : List ExcelRow) (tolerance : ℚ) (r : CompRow),
      r ∈ outerMerge pdf excel →
      (∀ p ∈ pdf, p.code ≠ r.code) →
      (∀ e ∈ excel, 0 ≤ e.total) →
      r.totalPDF = 0
      ∧ (rowStatus tolerance r = Status.matched ↔ r.totalEXCEL ≤ tolerance) := by
  intro pdf excel tolerance r hr hall hpos
  have hright : r ∈ rightPart pdf excel := by
    unfold outerMerge at hr
    rw [List.mem_append] at hr
    rcases hr with hr | hr
    · obtain ⟨p, hp, hpc, -, -⟩ := mem_leftPart pdf excel r hr
      exact absurd hpc.symm (hall p hp)
    · exact hr
  obtain ⟨e, he, -, h0, het, -⟩ := mem_rightPart pdf excel r hright
  have hnn : 0 ≤ r.totalEXCEL := het ▸ hpos e he
  refine ⟨h0, ?_⟩
  unfold rowStatus
  rw [h0, zero_sub, abs_neg, abs_of_nonneg hnn]
  by_cases ht : r.totalEXCEL ≤ tolerance
  · simp [ht]
  · simp [ht]

/-- Witness for C10: the code `"B"` is absent from an empty document side;
its row has document amount 0 and is Match since its total 5 is within
tolerance 10. -/
theorem missing_item_matches_iff_total_le_tolerance_witness :
    ({ code := "B", totalPDF := 0, totalEXCEL := 5 } : CompRow).totalPDF = 0
    ∧ (rowStatus 10 { code := "B", totalPDF := 0, totalEXCEL := 5 } = Status.matched
        ↔ ({ code := "B", totalPDF := 0, totalEXCEL := 5 } : CompRow).totalEXCEL ≤ 10) :=
  missing_item_matches_iff_total_le_tolerance []
    [{ code := "B", qty := 0, tax := 0, total := 5 }] 10
    { code := "B", totalPDF := 0, totalEXCEL := 5 }
    (by decide) (by simp) (by decide)

/-- If no row contains the marker, the header scan finds nothing. -/
theorem findHeaderRow_eq_none (rows : List (List String))
    (h : ∀ r ∈ rows, rowHasSKU r = false) : findHeaderRow rows = none := by
  induction rows with
  | nil => rfl
  | cons r rest ih =>
    simp [findHeaderRow, h r (List.mem_cons_self _ _),
      ih (fun x hx => h x (List.mem_cons_of_mem _ hx))]

/-- The header scan returns the first index whose row contains the
marker. -/
theorem findHeaderRow_eq_some (rows : List (List String)) (i : ℕ) (hi : i < rows.length)
    (h1 : rowHasSKU (rows.get ⟨i, hi⟩) = true)
    (h2 : ∀ (j : ℕ) (hj : j < i), rowHasSKU (rows.get ⟨j, hj.trans hi⟩) = false) :
    findHeaderRow rows = some i := by
  induction rows generalizing i with
  | nil => exact absurd hi (by simp)
  | cons r rest ih =>
    cases i with
    | zero =>
      simp only [List.get] at h1
      simp [findHeaderRow, h1]
    | succ k =>
      have h0 : rowHasSKU r = false := by
        have := h2 0 (Nat.succ_pos k)
        simpa [List.get] using this
      have hk : k < rest.length := by
        simpa [Nat.succ_lt_succ_iff] using hi
      have h1' : rowHasSKU (rest.get ⟨k, hk⟩) = true := by
        simpa [List.get] using h1
      have h2' : ∀ (j : ℕ) (hj : j < k), rowHasSKU (rest.get ⟨j, hj.trans hk⟩) = false := by
        intro j hj
        have := h2 (j + 1) (Nat.succ_lt_succ hj)
        simpa [List.get] using this
      simp [findHeaderRow, h0, ih k hk h1' h2']

/-- C9: if no cell of any spreadsheet row contains the case-sensitive
marker `"SKU"`, the normalizer fails with no partial result; otherwise the
first row containing the marker is used as the header row and all later
rows are cleaned into the result. -/
theorem header_scan_first_sku_row :
    ∀ rows : List (List Cell),
      ((∀ r ∈ rows, ∀ c ∈ r, strContainsSub "SKU" (strOfCell c) = false) →
        load_and_clean_excel rows = none)
      ∧ (∀ (i : ℕ) (hi : i < rows.length),
          rowHasSKU ((rows.get ⟨i, hi⟩).map strOfCell) = true →
          (∀ (j : ℕ) (hj : j < i),
            rowHasSKU ((rows.get ⟨j, hj.trans hi⟩).map strOfCell) = false) →
          load_and_clean_excel rows
            = some (((rows.drop (i + 1)).map makeExcelRow).filter
                (fun e => e.code != "nan"))) := by
  intro rows
  constructor
  · intro h
    have hnone : findHeaderRow (rows.map (fun r => r.map strOfCell)) = none := by
      apply findHeaderRow_eq_none
      intro rs hrs
      rw [List.mem_map] at hrs
      obtain ⟨r, hr, hrr⟩ := hrs
      subst hrr
      rw [rowHasSKU, List.any_eq_false]
      intro c hc
      rw [List.mem_map] at hc
      obtain ⟨cell, hcell, hcc⟩ := hc
      subst hcc
      rw [h r hr cell hcell]
      simp
    unfold load_and_clean_excel
    rw [hnone]
  · intro i hi h1 h2
    have hsome : findHeaderRow (rows.map (fun r => r.map strOfCell)) = some i := by
      apply findHeaderRow_eq_some _ i (by simpa using hi)
      · simpa [List.get_eq_getElem, List.getElem_map] using h1
      · intro j hj
        simpa [List.get_eq_getElem, List.getElem_map] using h2 j hj
    unfold load_and_clean_excel
    rw [hsome]

/-- Witness for C9: a spreadsheet whose marker row sits at index 1 (below
a junk row) is normalized from row 2 onward. -/
theorem header_scan_first_sku_row_witness :
    load_and_clean_excel
        [[Cell.str "junk"], [Cell.str "SKU"],
         [Cell.str "TR-A1", Cell.na, Cell.na, Cell.na, Cell.str "5", Cell.na, Cell.na,
          Cell.na, Cell.na, Cell.na, Cell.str "10", Cell.str "110"]]
      = some ((([[Cell.str "junk"], [Cell.str "SKU"],
          [Cell.str "TR-A1", Cell.na, Cell.na, Cell.na, Cell.str "5", Cell.na, Cell.na,
           Cell.na, Cell.na, Cell.na, Cell.str "10", Cell.str "110"]].drop (1 + 1)).map
            makeExcelRow).filter (fun e => e.code != "nan")) :=
  (header_scan_first_sku_row _).2 1 (by decide) (by decide)
    (fun j hj => by
      have hj0 : j = 0 := Nat.lt_one_iff.mp hj
      subst hj0
      exact (by decide : rowHasSKU (List.map strOfCell [Cell.str "junk"]) = false))

end Tramontina
